import Mathlib

/-!
Verification of the DocuCat incremental vector-store synchronization engine
(`vector_store.py` and `tools/query_vector_store.py`), as a shallow embedding.

External collaborators (file system, git, the embedding provider, the
per-path failure behaviour of the storage backend) are supplied as an
explicit environment record; the control flow of the source functions is
translated branch by branch.
-/

/-- Embedding dimension for Gemini (`EMBEDDING_DIM = 256` in the source). -/
def EMBEDDING_DIM : Nat := 256

/-- An embedding vector: float values are modelled as rationals. -/
abbrev Vec := List ℚ

/-- One stored record of the Milvus collection: the fields of the collection
schema created in `initialize_vector_store` (the backend-assigned `id` is
kept implicit; deletion by path is modelled directly). -/
structure Chunk where
  file_path : String
  content : String
  file_type : String
  embedding : Vec
deriving Repr, DecidableEq

/-- The persistent state owned by the store: the chunks of the collection in
`milvus.db` and the `last_update_sha` field of `store.json` (absent when the
file is missing or unreadable, as in `load_store_metadata`). -/
structure StoreState where
  chunks : List Chunk
  metadata : Option String
deriving Repr, DecidableEq

/-- Counts of the backend operations an operation performed: connections
opened and closed, delete round trips, insert round trips. -/
structure Trace where
  connects : Nat
  disconnects : Nat
  deleteOps : Nat
  insertOps : Nat
deriving Repr, DecidableEq

def Trace.empty : Trace := ⟨0, 0, 0, 0⟩

/-- The extension table of `get_supported_extensions`, copied verbatim. -/
def get_supported_extensions : List (String × String) :=
  [(".py", "python"),
   (".js", "javascript"),
   (".ts", "typescript"),
   (".java", "java"),
   (".cpp", "cpp"),
   (".cc", "cpp"),
   (".cxx", "cpp"),
   (".c", "c"),
   (".h", "c"),
   (".hpp", "cpp"),
   (".cs", "csharp"),
   (".go", "go"),
   (".rs", "rust"),
   (".rb", "ruby"),
   (".php", "php"),
   (".swift", "swift"),
   (".kt", "kotlin"),
   (".scala", "scala"),
   (".r", "r"),
   (".m", "objective-c"),
   (".mm", "objective-c"),
   (".md", "markdown"),
   (".tex", "latex"),
   (".html", "html"),
   (".htm", "html"),
   (".xml", "xml"),
   (".json", "json"),
   (".yaml", "yaml"),
   (".yml", "yaml"),
   (".sh", "bash"),
   (".bash", "bash"),
   (".ps1", "powershell"),
   (".sql", "sql"),
   (".txt", "text")]

/-- Dictionary lookup in the extension table (`supported_extensions[ext]`
guarded by the `in` check). -/
def lookupExt (ext : String) : Option String :=
  (get_supported_extensions.find? (fun kv => kv.1 == ext)).map (fun kv => kv.2)

/-- Index of the last occurrence of a character in a character list. -/
def lastIndexOf (c : Char) : List Char → Option Nat
  | [] => none
  | x :: xs =>
    match lastIndexOf c xs with
    | some i => some (i + 1)
    | none => if x = c then some 0 else none

/-- The final path component, as in `pathlib.PurePath.name` for the
slash-separated relative paths produced by `git diff --name-only`. -/
def pathNameChars (cs : List Char) : List Char :=
  match lastIndexOf '/' cs with
  | some i => cs.drop (i + 1)
  | none => cs

/-- `pathlib.PurePath.suffix`: the part of the name from its last dot,
empty when the dot is the first character of the name or the dot is last. -/
def pathSuffix (s : String) : String :=
  let name := pathNameChars s.toList
  match lastIndexOf '.' name with
  | none => ""
  | some i => if 0 < i ∧ i + 1 < name.length then String.mk (name.drop i) else ""

/-- `str.lower()` on an extension (ASCII, via `Char.toLower`). -/
def lowerString (s : String) : String :=
  String.mk (s.toList.map Char.toLower)

/-- Python slicing `s[:n]` by characters, used as `chunk[:65535]`. -/
def takeChars (n : Nat) (s : String) : String :=
  String.mk (s.toList.take n)

/-- The predicate of the deletion expression `file_path == "p"`. -/
def pathMatches (p : String) (c : Chunk) : Bool :=
  c.file_path == p

/-- All stored chunks whose `file_path` equals `p` exactly (the query in
`delete_chunks_by_file_path`). -/
def chunksFor (p : String) (l : List Chunk) : List Chunk :=
  l.filter (pathMatches p)

/-- The collection after `delete_chunks_by_file_path` removed every chunk of
path `p`. -/
def deletePath (p : String) (l : List Chunk) : List Chunk :=
  l.filter (fun c => ! pathMatches p c)

/-- The rows inserted for one changed file in `update_vector_store`:
`file_path`, `chunk[:65535]`, `file_type` and the returned embedding,
column-aligned. -/
def mkInsertedChunks (p ftype : String) (texts : List String) (vecs : List Vec) :
    List Chunk :=
  (texts.zip vecs).map (fun tv =>
    { file_path := p, content := takeChars 65535 tv.1, file_type := ftype,
      embedding := tv.2 })

/-- Modelled from the spec: the storage backend (Milvus, not part of this
repository) validates an insert batch against the collection schema —
every column has the same number of rows and every vector has exactly the
configured dimension; a batch violating this is rejected whole, never
padded or truncated (spec section 4.3, "Dimension invariant", and section 6,
"must fail loudly on dimension mismatch rather than coerce"). -/
def milvusInsertAccepts (dim rows : Nat) (vecs : List Vec) : Bool :=
  (vecs.length == rows) && vecs.all (fun v => v.length == dim)

/-- The external collaborators and failure switches one run of the engine
observes: repository validation facts, git answers, on-disk contents, the
chunker, the embedding provider, per-path backend deletion failures, the
`store.json` write outcome, and the scan result for a full build. -/
structure Env where
  repoExists : Bool
  repoIsDir : Bool
  dbExists : Bool
  newSha : Option String
  changedFiles : Except String (List String)
  collectionOk : Bool
  apiKeyOk : Bool
  fs : String → Option String
  split : String → String → Except String (List String)
  embed : List String → Except String (List Vec)
  deleteFail : String → Option String
  saveOk : Bool
  scanFiles : Except String (List (String × String))

/-- `save_store_metadata`: writes `last_update_sha`, returns `True` on
success; every exception is swallowed and reported as `False`, leaving the
previous file content in place. -/
def save_store_metadata (env : Env) (st : StoreState) (sha : String) :
    Bool × StoreState :=
  if env.saveOk then (true, { st with metadata := some sha })
  else (false, st)

/-- Accumulator of the per-changed-file loop of `update_vector_store`. -/
structure LoopAcc where
  chunks : List Chunk
  chunksDeleted : Nat
  chunksAdded : Nat
  processedFiles : Nat
  errors : List (String × String)
  deleteOps : Nat
  insertOps : Nat
deriving Repr

def initAcc (chunks : List Chunk) : LoopAcc :=
  { chunks := chunks, chunksDeleted := 0, chunksAdded := 0,
    processedFiles := 0, errors := [], deleteOps := 0, insertOps := 0 }

/-- One iteration of the changed-file loop of `update_vector_store`
(lines 820 to 876 of `vector_store.py`): skip unsupported extensions,
delete the old chunks of the path, and when the file still exists on disk
re-chunk, embed and insert it; chunking, embedding and backend failures are
recorded per path and skip the rest of the iteration. -/
def stepFile (env : Env) (acc : LoopAcc) (f : String) : LoopAcc :=
  match lookupExt (lowerString (pathSuffix f)) with
  | none => acc
  | some ftype =>
    match env.deleteFail f with
    | some err => { acc with errors := acc.errors ++ [(f, err)] }
    | none =>
      let deleted := (chunksFor f acc.chunks).length
      let acc1 : LoopAcc :=
        { acc with chunks := deletePath f acc.chunks,
                   chunksDeleted := acc.chunksDeleted + deleted,
                   deleteOps := acc.deleteOps + 1 }
      match env.fs f with
      | none => { acc1 with processedFiles := acc1.processedFiles + 1 }
      | some content =>
        match env.split content ftype with
        | .error err => { acc1 with errors := acc1.errors ++ [(f, err)] }
        | .ok texts =>
          match texts with
          | [] => { acc1 with processedFiles := acc1.processedFiles + 1 }
          | t0 :: trest =>
            match env.embed (t0 :: trest) with
            | .error e =>
              { acc1 with errors :=
                  acc1.errors ++ [(f, "Error generating embeddings: " ++ e)] }
            | .ok vecs =>
              if milvusInsertAccepts EMBEDDING_DIM (t0 :: trest).length vecs then
                { acc1 with
                    chunks := acc1.chunks ++
                      mkInsertedChunks f ftype (t0 :: trest) vecs,
                    chunksAdded := acc1.chunksAdded + (t0 :: trest).length,
                    insertOps := acc1.insertOps + 1,
                    processedFiles := acc1.processedFiles + 1 }
              else
                { acc1 with errors :=
                    acc1.errors ++
                      [(f, "Error generating embeddings: backend rejected batch")] }

/-- The result dictionary of `update_vector_store`. -/
structure UpdateResult where
  success : Bool
  old_sha : Option String
  new_sha : Option String
  changed_files : Nat
  processed_files : Nat
  chunks_deleted : Nat
  chunks_added : Nat
  error_type : Option String
  processing_errors : List (String × String)
deriving Repr, DecidableEq

def updFail (etype : String) : UpdateResult :=
  { success := false, old_sha := none, new_sha := none, changed_files := 0,
    processed_files := 0, chunks_deleted := 0, chunks_added := 0,
    error_type := some etype, processing_errors := [] }

def updOk (old_sha new_sha : String) (cf pf cd ca : Nat)
    (errs : List (String × String)) : UpdateResult :=
  { success := true, old_sha := some old_sha, new_sha := some new_sha,
    changed_files := cf, processed_files := pf, chunks_deleted := cd,
    chunks_added := ca, error_type := none, processing_errors := errs }

/-- `update_vector_store` (lines 684 to 903 of `vector_store.py`): validate
the repository and the store, fast-path when the stored SHA equals the
current one, diff the two references, then run the per-file loop between a
connect and a disconnect, and finally write the new SHA to `store.json`.
A failure of the collection lookup after connecting raises to the outer
handler, which returns a `processing_error` result without disconnecting. -/
def update_vector_store (env : Env) (st : StoreState) :
    UpdateResult × StoreState × Trace :=
  if env.repoExists = false then (updFail "validation", st, Trace.empty)
  else if env.repoIsDir = false then (updFail "validation", st, Trace.empty)
  else if env.dbExists = false then (updFail "validation", st, Trace.empty)
  else
    match st.metadata with
    | none => (updFail "validation", st, Trace.empty)
    | some old_sha =>
      match env.newSha with
      | none => (updFail "validation", st, Trace.empty)
      | some new_sha =>
        if old_sha = new_sha then
          (updOk old_sha new_sha 0 0 0 0 [], st, Trace.empty)
        else
          match env.changedFiles with
          | .error _ => (updFail "git_error", st, Trace.empty)
          | .ok changed =>
            match changed with
            | [] =>
              (updOk old_sha new_sha 0 0 0 0 [],
               (save_store_metadata env st new_sha).2, Trace.empty)
            | c0 :: crest =>
              if env.collectionOk = false then
                (updFail "processing_error", st,
                 { connects := 1, disconnects := 0, deleteOps := 0,
                   insertOps := 0 })
              else if env.apiKeyOk = false then
                (updFail "processing_error", st,
                 { connects := 1, disconnects := 1, deleteOps := 0,
                   insertOps := 0 })
              else
                let acc := (c0 :: crest).foldl (stepFile env) (initAcc st.chunks)
                (updOk old_sha new_sha (c0 :: crest).length acc.processedFiles
                   acc.chunksDeleted acc.chunksAdded acc.errors,
                 (save_store_metadata env
                    { chunks := acc.chunks, metadata := st.metadata } new_sha).2,
                 { connects := 1, disconnects := 1, deleteOps := acc.deleteOps,
                   insertOps := acc.insertOps })

/-- The chunks the per-file pipeline produces for path `p` from its current
on-disk content: nothing when the file does not exist or chunks to nothing,
otherwise the inserted rows; failure branches contribute nothing. -/
def expectedChunks (env : Env) (p : String) : List Chunk :=
  match lookupExt (lowerString (pathSuffix p)) with
  | none => []
  | some ftype =>
    match env.fs p with
    | none => []
    | some content =>
      match env.split content ftype with
      | .error _ => []
      | .ok texts =>
        match texts with
        | [] => []
        | t0 :: trest =>
          match env.embed (t0 :: trest) with
          | .error _ => []
          | .ok vecs =>
            if milvusInsertAccepts EMBEDDING_DIM (t0 :: trest).length vecs then
              mkInsertedChunks p ftype (t0 :: trest) vecs
            else []

/-- The extension filter of `scan_repository_files` (lines 299 to 313):
from the walked file list, keep exactly the paths whose lower-cased suffix
is in the extension table, paired with their file type. The directory walk
itself is supplied as the input list. -/
def scan_repository_files (allFiles : List String) : List (String × String) :=
  allFiles.filterMap (fun f =>
    match lookupExt (lowerString (pathSuffix f)) with
    | some t => some (f, t)
    | none => none)

/-- `split_file_into_chunks` for a scanned file during a full build: read
the content from disk (a vanished or unreadable file is a per-file error)
and split it with the chunker. -/
def splitScannedFile (env : Env) (relPath ftype : String) :
    Except String (List String) :=
  match env.fs relPath with
  | none => .error ("Error splitting file " ++ relPath)
  | some content => env.split content ftype

/-- Accumulator of the per-file chunking loop of `initialize_vector_store`:
the column-aligned rows awaiting embeddings, the chunk texts handed to the
provider, and counters. -/
structure BuildAcc where
  rows : List (String × String × String)
  texts : List String
  totalChunks : Nat
  filesProcessed : Nat
  errors : List (String × String)
deriving Repr

def buildAccInit : BuildAcc :=
  { rows := [], texts := [], totalChunks := 0, filesProcessed := 0,
    errors := [] }

/-- One iteration of the chunking loop of `initialize_vector_store`
(lines 602 to 616): chunking failures are collected per file; a file with
chunks contributes one row per chunk (content truncated to 65535). -/
def buildStep (env : Env) (acc : BuildAcc) (ft : String × String) : BuildAcc :=
  match splitScannedFile env ft.1 ft.2 with
  | .error e => { acc with errors := acc.errors ++ [(ft.1, e)] }
  | .ok [] => acc
  | .ok (t0 :: trest) =>
      { acc with
          rows := acc.rows ++
            (t0 :: trest).map (fun c => (ft.1, takeChars 65535 c, ft.2)),
          texts := acc.texts ++ (t0 :: trest),
          totalChunks := acc.totalChunks + (t0 :: trest).length,
          filesProcessed := acc.filesProcessed + 1 }

/-- The chunk records a successful build insert creates from the rows and
the returned embeddings. -/
def mkBuiltChunks (rows : List (String × String × String)) (vecs : List Vec) :
    List Chunk :=
  (rows.zip vecs).map (fun re =>
    { file_path := re.1.1, content := re.1.2.1, file_type := re.1.2.2,
      embedding := re.2 })

/-- The result dictionary of `initialize_vector_store`. -/
structure BuildResult where
  success : Bool
  files_scanned : Nat
  files_processed : Nat
  chunks_stored : Nat
  embedding_dim : Nat
  store_existed : Bool
  error_type : Option String
  processing_errors : List (String × String)
deriving Repr, DecidableEq

def bFail (etype : String) : BuildResult :=
  { success := false, files_scanned := 0, files_processed := 0,
    chunks_stored := 0, embedding_dim := EMBEDDING_DIM, store_existed := false,
    error_type := some etype, processing_errors := [] }

def bOk (scanned processed stored : Nat) (existed : Bool)
    (errs : List (String × String)) : BuildResult :=
  { success := true, files_scanned := scanned, files_processed := processed,
    chunks_stored := stored, embedding_dim := EMBEDDING_DIM,
    store_existed := existed, error_type := none, processing_errors := errs }

/-- At the end of a build: `get_current_git_sha` then, when it resolved,
`save_store_metadata` (whose boolean result is dropped). -/
def saveIfSha (env : Env) (st : StoreState) : StoreState :=
  match env.newSha with
  | some sha => (save_store_metadata env st sha).2
  | none => st

/-- `initialize_vector_store` (lines 408 to 681 of `vector_store.py`):
validate, refuse to overwrite without force, connect and create the fresh
collection, scan, chunk every file, embed all texts in one call, check the
dimension of the first returned vector, insert all rows as one batch, then
disconnect and record the current SHA. A backend rejection of the insert
batch raises to the outer handler, which returns a `processing_error`
result without disconnecting. -/
def initialize_vector_store (env : Env) (force : Bool) (st : StoreState) :
    BuildResult × StoreState × Trace :=
  if env.repoExists = false then (bFail "validation", st, Trace.empty)
  else if env.repoIsDir = false then (bFail "validation", st, Trace.empty)
  else if env.dbExists = true ∧ force = false then
    (bFail "already_exists", st, Trace.empty)
  else
    let store_existed := force && env.dbExists
    match env.scanFiles with
    | .error _ =>
      (bFail "scan_error", { st with chunks := [] }, ⟨1, 1, 0, 0⟩)
    | .ok files =>
      match files with
      | [] =>
        (bOk 0 0 0 store_existed [],
         saveIfSha env { st with chunks := [] }, ⟨1, 1, 0, 0⟩)
      | f0 :: frest =>
        if env.apiKeyOk = false then
          (bFail "processing_error", { st with chunks := [] }, ⟨1, 1, 0, 0⟩)
        else
          let acc := (f0 :: frest).foldl (buildStep env) buildAccInit
          if acc.totalChunks = 0 then
            (bOk (f0 :: frest).length acc.filesProcessed 0 store_existed
               acc.errors,
             saveIfSha env { st with chunks := [] }, ⟨1, 1, 0, 0⟩)
          else
            match env.embed acc.texts with
            | .error _ =>
              (bFail "processing_error", { st with chunks := [] },
               ⟨1, 1, 0, 0⟩)
            | .ok embs =>
              if embs.isEmpty = false ∧ (embs.headD []).length ≠ EMBEDDING_DIM
              then
                (bFail "processing_error", { st with chunks := [] },
                 ⟨1, 1, 0, 0⟩)
              else if milvusInsertAccepts EMBEDDING_DIM acc.texts.length embs
              then
                (bOk (f0 :: frest).length acc.filesProcessed acc.totalChunks
                   store_existed acc.errors,
                 saveIfSha env
                   { chunks := mkBuiltChunks acc.rows embs,
                     metadata := st.metadata },
                 ⟨1, 1, 0, 1⟩)
              else
                (bFail "processing_error", { st with chunks := [] },
                 ⟨1, 0, 0, 0⟩)

/-- A raw search hit as returned by the backend: entity fields plus its L2
distance to the query vector. -/
structure SearchHit where
  file_path : String
  content : String
  file_type : String
  distance : ℚ
deriving Repr, DecidableEq

/-- A formatted result of `query_vector_store`, carrying the relevance
score. -/
structure FormattedHit where
  file_path : String
  content : String
  file_type : String
  relevance : ℚ
deriving Repr, DecidableEq

/-- The relevance computation of `query_vector_store`,
`1.0 / (1.0 + distance)`. -/
def relevanceScore (distance : ℚ) : ℚ := 1 / (1 + distance)

/-- Formatting of one hit (lines 102 to 111 of `query_vector_store.py`). -/
def formatHit (h : SearchHit) : FormattedHit :=
  { file_path := h.file_path, content := h.content, file_type := h.file_type,
    relevance := relevanceScore h.distance }

/-- The dimensionality adjustment of the query embedding (lines 58 to 66 of
`query_vector_store.py`): pad with zeros when short, truncate when long,
keep as is when the length already matches. -/
def adjustQueryEmbedding (v : Vec) : Vec :=
  if v.length ≠ EMBEDDING_DIM then
    if v.length < EMBEDDING_DIM then
      v ++ List.replicate (EMBEDDING_DIM - v.length) 0
    else v.take EMBEDDING_DIM
  else v

/-- Environment of one `query_vector_store` call: store presence, API key,
the raw query embedding returned by the provider, and the backend search
(query vector and limit to ranked hits). -/
structure QueryEnv where
  dbExists : Bool
  apiKeyOk : Bool
  queryEmbedding : Vec
  search : Vec → Nat → List SearchHit

/-- `query_vector_store` (`tools/query_vector_store.py`): check the store
and the API key, embed the query, adjust its dimensionality, search, and
format each hit with its relevance score. -/
def query_vector_store (env : QueryEnv) (top_k : Nat) :
    Except String (List FormattedHit) :=
  if env.dbExists = false then
    .error "Vector store not found. Please initialize it first."
  else if env.apiKeyOk = false then
    .error "GEMINI_API_KEY environment variable is not set"
  else
    .ok ((env.search (adjustQueryEmbedding env.queryEmbedding) top_k).map
      formatHit)

/-- Path `p` incurs no processing error during one update: its deletion
succeeds on the backend, and when the file exists its chunking succeeds and
(when it produced chunks) its embedding succeeds with a batch the backend
accepts. -/
def noPathError (env : Env) (p ftype : String) : Prop :=
  env.deleteFail p = none ∧
  ∀ content, env.fs p = some content →
    ∃ texts, env.split content ftype = Except.ok texts ∧
      (texts = [] ∨ ∃ vecs, env.embed texts = Except.ok vecs ∧
        milvusInsertAccepts EMBEDDING_DIM texts.length vecs = true)

/-- A concrete environment for evaluating the update path: one changed
markdown file that exists on disk, a chunker yielding the whole content,
and an embedding provider returning 256-dimensional zero vectors. -/
def envBase : Env :=
  { repoExists := true, repoIsDir := true, dbExists := true,
    newSha := some "b", changedFiles := Except.ok ["a.md"],
    collectionOk := true, apiKeyOk := true,
    fs := fun p => if p = "a.md" then some "hello" else none,
    split := fun content _ => Except.ok [content],
    embed := fun ts => Except.ok (ts.map (fun _ => List.replicate 256 (0 : ℚ))),
    deleteFail := fun _ => none,
    saveOk := true,
    scanFiles := Except.ok [] }

def stBase : StoreState := { chunks := [], metadata := some "a" }

def envNoChange : Env := { envBase with newSha := some "a" }

def envSplitFails : Env :=
  { envBase with split := fun _ _ => Except.error "boom" }

def envNoCollection : Env := { envBase with collectionOk := false }

def envEmbedErr : Env :=
  { envBase with embed := fun _ => Except.error "embedding down" }

def envEmptyDiff : Env := { envBase with changedFiles := Except.ok [] }

def envSaveFails : Env := { envBase with saveOk := false }

def envBuildSaveFails : Env :=
  { envBase with dbExists := false, saveOk := false,
                 scanFiles := Except.ok [] }

def envBuildBadDim : Env :=
  { envBase with dbExists := false,
                 scanFiles := Except.ok [("a.md", "markdown")],
                 embed := fun ts => Except.ok (ts.map (fun _ => [(0 : ℚ)])) }

def envUpdBadDim : Env :=
  { envBase with embed := fun ts => Except.ok (ts.map (fun _ => [(0 : ℚ)])) }

def hitNear : SearchHit :=
  { file_path := "a.md", content := "hello", file_type := "markdown",
    distance := 0 }

def hitFar : SearchHit :=
  { file_path := "b.md", content := "world", file_type := "markdown",
    distance := 1 }

def qEnvShort : QueryEnv :=
  { dbExists := true, apiKeyOk := true, queryEmbedding := [1, 2, 3],
    search := fun _ _ => [hitNear, hitFar] }

/-- Componentwise sum of two backend traces, for operations that open more
than one connection in sequence. -/
def Trace.add (a b : Trace) : Trace :=
  ⟨a.connects + b.connects, a.disconnects + b.disconnects,
   a.deleteOps + b.deleteOps, a.insertOps + b.insertOps⟩

/-- Connection lifecycle of `query_vector_store`
(`tools/query_vector_store.py` lines 36 to 117): the store check, the
API-key check and the query embedding all run before any connect, so their
failures open no connection; after the connect, a raising backend call
(collection lookup, load or search) is caught by the outer handler, which
returns the error string without disconnecting; on success the function
disconnects before formatting the results. -/
def searchConnTrace (dbExists apiKeyOk embedOk backendOk : Bool) : Trace :=
  if dbExists = false then Trace.empty
  else if apiKeyOk = false then Trace.empty
  else if embedOk = false then Trace.empty
  else if backendOk = false then ⟨1, 0, 0, 0⟩
  else ⟨1, 1, 0, 0⟩

/-- `check_vector_store` (vector_store.py lines 906 to 935): a missing
database file returns False without connecting; otherwise the probe
connects and asks whether the collection exists — a raising backend call
is swallowed into False without disconnecting, and on a clean probe the
connection is closed before returning the answer. -/
def check_vector_store_run (dbExists checkRaises hasCollection : Bool) :
    Bool × Trace :=
  if dbExists = false then (false, Trace.empty)
  else if checkRaises = true then (false, ⟨1, 0, 0, 0⟩)
  else (hasCollection, ⟨1, 1, 0, 0⟩)

/-- `get_store_info` (vector_store.py lines 938 to 979): first the
`check_vector_store` probe with its own connection; when the check passes,
a second connection loads the collection and reads the entity count,
disconnecting on success; an exception after that second connect is
swallowed into the None result without disconnecting. -/
def get_store_info_run (dbExists checkRaises hasCollection infoRaises : Bool)
    (numEntities : Nat) : Option (Nat × Nat) × Trace :=
  let c := check_vector_store_run dbExists checkRaises hasCollection
  if c.1 = false then (none, c.2)
  else if infoRaises = true then (none, Trace.add c.2 ⟨1, 0, 0, 0⟩)
  else (some (numEntities, EMBEDDING_DIM), Trace.add c.2 ⟨1, 1, 0, 0⟩)

/-- A build environment whose embedding batch passes the first-vector check
of `initialize_vector_store` but contains a later mismatched vector, so the
insert is rejected by the backend and the exception reaches the outer
handler. -/
def envBuildLeak : Env :=
  { envBase with
      dbExists := false,
      scanFiles := Except.ok [("a.md", "markdown"), ("b.md", "markdown")],
      fs := fun p =>
        if p = "a.md" then some "hello"
        else if p = "b.md" then some "world" else none,
      embed := fun ts =>
        Except.ok (List.replicate 256 (0 : ℚ) ::
          (ts.drop 1).map (fun _ => [(0 : ℚ)])) }

theorem save_preserves_chunks (env : Env) (st : StoreState) (sha : String) :
    ((save_store_metadata env st sha).2).chunks = st.chunks := by
  unfold save_store_metadata
  cases h : env.saveOk <;> simp [h]

theorem save_metadata_success (env : Env) (st : StoreState) (sha : String)
    (h : env.saveOk = true) :
    ((save_store_metadata env st sha).2).metadata = some sha := by
  simp [save_store_metadata, h]

theorem save_metadata_failed (env : Env) (st : StoreState) (sha : String)
    (h : env.saveOk = false) :
    (save_store_metadata env st sha).2 = st := by
  simp [save_store_metadata, h]

theorem chunksFor_append (p : String) (a b : List Chunk) :
    chunksFor p (a ++ b) = chunksFor p a ++ chunksFor p b := by
  simp [chunksFor]

theorem chunksFor_deletePath_self (p : String) (l : List Chunk) :
    chunksFor p (deletePath p l) = [] := by
  induction l with
  | nil => rfl
  | cons c cs ih =>
    cases h : pathMatches p c with
    | true =>
      simp only [deletePath, chunksFor, List.filter_cons, h] at ih ⊢
      simp [ih]
    | false =>
      simp only [deletePath, chunksFor, List.filter_cons, h] at ih ⊢
      simp [h, ih]

theorem chunksFor_deletePath_ne {p f : String} (h : p ≠ f) (l : List Chunk) :
    chunksFor p (deletePath f l) = chunksFor p l := by
  induction l with
  | nil => rfl
  | cons c cs ih =>
    cases hm : pathMatches f c with
    | true =>
      have hcf : c.file_path = f := by simpa [pathMatches] using hm
      have hp : pathMatches p c = false := by
        simp only [pathMatches, beq_eq_false_iff_ne, ne_eq, hcf]
        exact fun hfp => h hfp.symm
      simp [deletePath, chunksFor, List.filter_cons, hm, hp] at *
      exact ih
    | false =>
      simp [deletePath, chunksFor, List.filter_cons, hm] at *
      cases hp : pathMatches p c <;> simp [hp, ih]

theorem chunksFor_mkInserted_self (p ftype : String) (ts : List String)
    (vs : List Vec) :
    chunksFor p (mkInsertedChunks p ftype ts vs) = mkInsertedChunks p ftype ts vs := by
  apply List.filter_eq_self.mpr
  intro c hc
  simp only [mkInsertedChunks, List.mem_map] at hc
  obtain ⟨tv, _, rfl⟩ := hc
  simp [pathMatches]

theorem chunksFor_mkInserted_ne {p f : String} (h : p ≠ f) (ftype : String)
    (ts : List String) (vs : List Vec) :
    chunksFor p (mkInsertedChunks f ftype ts vs) = [] := by
  apply List.filter_eq_nil_iff.mpr
  intro c hc
  simp only [mkInsertedChunks, List.mem_map] at hc
  obtain ⟨tv, _, rfl⟩ := hc
  simp only [pathMatches, beq_eq_false_iff_ne, ne_eq, Bool.not_eq_true]
  exact fun hfp => h hfp.symm

theorem stepFile_unsupported (env : Env) (acc : LoopAcc) (f : String)
    (h : lookupExt (lowerString (pathSuffix f)) = none) :
    stepFile env acc f = acc := by
  simp [stepFile, h]

theorem stepFile_chunksFor_ne (env : Env) (acc : LoopAcc) {p f : String}
    (h : p ≠ f) :
    chunksFor p (stepFile env acc f).chunks = chunksFor p acc.chunks := by
  unfold stepFile
  cases hl : lookupExt (lowerString (pathSuffix f)) with
  | none => rfl
  | some ftype =>
    cases hd : env.deleteFail f with
    | some err => rfl
    | none =>
      cases hfs : env.fs f with
      | none => simpa using chunksFor_deletePath_ne h acc.chunks
      | some content =>
        cases hs : env.split content ftype with
        | error e => simpa [hs] using chunksFor_deletePath_ne h acc.chunks
        | ok texts =>
          cases texts with
          | nil => simpa [hs] using chunksFor_deletePath_ne h acc.chunks
          | cons t0 trest =>
            cases he : env.embed (t0 :: trest) with
            | error e =>
              simpa [hs, he] using chunksFor_deletePath_ne h acc.chunks
            | ok vecs =>
              by_cases ha :
                  milvusInsertAccepts EMBEDDING_DIM (t0 :: trest).length vecs = true
              · simp only [List.length_cons] at ha
                simp [hs, he, ha, chunksFor_append,
                      chunksFor_deletePath_ne h, chunksFor_mkInserted_ne h]
              · simp only [Bool.not_eq_true] at ha
                simp only [List.length_cons] at ha
                simp [hs, he, ha, chunksFor_deletePath_ne h]

theorem foldl_chunksFor_not_mem (env : Env) {p : String} :
    ∀ (l : List String) (acc : LoopAcc), p ∉ l →
      chunksFor p ((l.foldl (stepFile env) acc).chunks) = chunksFor p acc.chunks
  | [], _, _ => rfl
  | f :: fs, acc, h => by
    have h1 : p ≠ f := fun hpf => h (hpf ▸ List.mem_cons_self f fs)
    have h2 : p ∉ fs := fun hm => h (List.mem_cons_of_mem f hm)
    rw [List.foldl_cons, foldl_chunksFor_not_mem env fs _ h2,
        stepFile_chunksFor_ne env acc h1]

theorem stepFile_errors_mono (env : Env) (acc : LoopAcc) (f : String)
    {e : String × String} (h : e ∈ acc.errors) :
    e ∈ (stepFile env acc f).errors := by
  unfold stepFile
  cases hl : lookupExt (lowerString (pathSuffix f)) with
  | none => exact h
  | some ftype =>
    cases hd : env.deleteFail f with
    | some err => simpa using Or.inl h
    | none =>
      cases hfs : env.fs f with
      | none => exact h
      | some content =>
        cases hs : env.split content ftype with
        | error err => simp [hs]; exact Or.inl h
        | ok texts =>
          cases texts with
          | nil => simp [hs]; exact h
          | cons t0 trest =>
            cases he : env.embed (t0 :: trest) with
            | error err => simp [hs, he]; exact Or.inl h
            | ok vecs =>
              by_cases ha :
                  milvusInsertAccepts EMBEDDING_DIM (t0 :: trest).length vecs = true
              · simp only [List.length_cons] at ha
                simp [hs, he, ha]; exact h
              · simp only [Bool.not_eq_true] at ha
                simp only [List.length_cons] at ha
                simp [hs, he, ha]; exact Or.inl h

theorem foldl_errors_mono (env : Env) :
    ∀ (l : List String) (acc : LoopAcc) {e : String × String},
      e ∈ acc.errors → e ∈ ((l.foldl (stepFile env) acc).errors)
  | [], _, _, h => h
  | f :: fs, acc, e, h => by
    rw [List.foldl_cons]
    exact foldl_errors_mono env fs _ (stepFile_errors_mono env acc f h)

theorem stepFile_chunksFor_self (env : Env) (acc : LoopAcc) (p ftype : String)
    (hl : lookupExt (lowerString (pathSuffix p)) = some ftype)
    (hd : env.deleteFail p = none) :
    chunksFor p (stepFile env acc p).chunks = expectedChunks env p := by
  unfold stepFile expectedChunks
  rw [hl, hd]
  cases hfs : env.fs p with
  | none => simpa using chunksFor_deletePath_self p acc.chunks
  | some content =>
    cases hs : env.split content ftype with
    | error e => simpa [hs] using chunksFor_deletePath_self p acc.chunks
    | ok texts =>
      cases texts with
      | nil => simpa [hs] using chunksFor_deletePath_self p acc.chunks
      | cons t0 trest =>
        cases he : env.embed (t0 :: trest) with
        | error e => simpa [hs, he] using chunksFor_deletePath_self p acc.chunks
        | ok vecs =>
          by_cases ha :
              milvusInsertAccepts EMBEDDING_DIM (t0 :: trest).length vecs = true
          · simp only [List.length_cons] at ha
            simp [hs, he, ha, chunksFor_append, chunksFor_deletePath_self,
                  chunksFor_mkInserted_self]
          · simp only [Bool.not_eq_true] at ha
            simp only [List.length_cons] at ha
            simp [hs, he, ha, chunksFor_deletePath_self]

theorem stepFile_split_error (env : Env) (acc : LoopAcc)
    (p ftype content msg : String)
    (hl : lookupExt (lowerString (pathSuffix p)) = some ftype)
    (hd : env.deleteFail p = none)
    (hfs : env.fs p = some content)
    (hs : env.split content ftype = Except.error msg) :
    (stepFile env acc p).chunks = deletePath p acc.chunks ∧
    (stepFile env acc p).errors = acc.errors ++ [(p, msg)] := by
  simp [stepFile, hl, hd, hfs, hs]

theorem stepFile_embed_error (env : Env) (acc : LoopAcc)
    (p ftype content t0 : String) (ts : List String) (e : String)
    (hl : lookupExt (lowerString (pathSuffix p)) = some ftype)
    (hd : env.deleteFail p = none)
    (hfs : env.fs p = some content)
    (hs : env.split content ftype = Except.ok (t0 :: ts))
    (he : env.embed (t0 :: ts) = Except.error e) :
    (stepFile env acc p).chunks = deletePath p acc.chunks ∧
    (stepFile env acc p).errors =
      acc.errors ++ [(p, "Error generating embeddings: " ++ e)] := by
  simp [stepFile, hl, hd, hfs, hs, he]

theorem foldl_chunksFor_unsupported (env : Env) {p : String}
    (h : lookupExt (lowerString (pathSuffix p)) = none) :
    ∀ (l : List String) (acc : LoopAcc),
      chunksFor p ((l.foldl (stepFile env) acc).chunks) = chunksFor p acc.chunks
  | [], _ => rfl
  | f :: fs, acc => by
    rw [List.foldl_cons, foldl_chunksFor_unsupported env h fs _]
    by_cases hpf : p = f
    · rw [← hpf, stepFile_unsupported env acc p h]
    · exact stepFile_chunksFor_ne env acc hpf

theorem exists_cons_append {α : Type} (p : α) (s t : List α) :
    ∃ c0 crest, s ++ p :: t = c0 :: crest := by
  cases s with
  | nil => exact ⟨p, t, rfl⟩
  | cons s0 srest => exact ⟨s0, srest ++ p :: t, rfl⟩

theorem upd_main (env : Env) (st : StoreState) (old nw c0 : String)
    (crest : List String)
    (h1 : env.repoExists = true) (h2 : env.repoIsDir = true)
    (h3 : env.dbExists = true) (h4 : st.metadata = some old)
    (h5 : env.newSha = some nw) (h6 : old ≠ nw)
    (h7 : env.changedFiles = Except.ok (c0 :: crest))
    (h10 : env.collectionOk = true) (h11 : env.apiKeyOk = true) :
    update_vector_store env st =
      ((fun acc =>
        (updOk old nw (c0 :: crest).length acc.processedFiles
           acc.chunksDeleted acc.chunksAdded acc.errors,
         (save_store_metadata env
            { chunks := acc.chunks, metadata := st.metadata } nw).2,
         (⟨1, 1, acc.deleteOps, acc.insertOps⟩ : Trace)))
       ((c0 :: crest).foldl (stepFile env) (initAcc st.chunks))) := by
  simp [update_vector_store, h1, h2, h3, h4, h5, h6, h7, h10, h11]

/-- Claim C2: when the last-synchronized SHA in Store Metadata equals the
current snapshot SHA, `update_vector_store` succeeds immediately with
changed, processed, deleted and added counts all zero, performs no backend
operation (no connection, deletion or insertion), and leaves the store
state — chunks and metadata — unchanged. -/
theorem upd_noop_fast_path (env : Env) (st : StoreState) (sha : String)
    (h1 : env.repoExists = true) (h2 : env.repoIsDir = true)
    (h3 : env.dbExists = true) (h4 : st.metadata = some sha)
    (h5 : env.newSha = some sha) :
    (update_vector_store env st).1 = updOk sha sha 0 0 0 0 [] ∧
    (update_vector_store env st).2.1 = st ∧
    (update_vector_store env st).2.2 = Trace.empty := by
  simp [update_vector_store, h1, h2, h3, h4, h5]

theorem upd_noop_fast_path_witness :
    (update_vector_store envNoChange stBase).1 = updOk "a" "a" 0 0 0 0 [] ∧
    (update_vector_store envNoChange stBase).2.1 = stBase ∧
    (update_vector_store envNoChange stBase).2.2 = Trace.empty :=
  upd_noop_fast_path envNoChange stBase "a" rfl rfl rfl rfl rfl

/-- Claim C7: when the two references differ but the diff lists no changed
path, `update_vector_store` writes the new reference to Store Metadata,
leaves the chunks unchanged, and succeeds with all change counts zero. -/
theorem upd_empty_diff (env : Env) (st : StoreState) (old nw : String)
    (h1 : env.repoExists = true) (h2 : env.repoIsDir = true)
    (h3 : env.dbExists = true) (h4 : st.metadata = some old)
    (h5 : env.newSha = some nw) (h6 : old ≠ nw)
    (h7 : env.changedFiles = Except.ok []) (h8 : env.saveOk = true) :
    (update_vector_store env st).1 = updOk old nw 0 0 0 0 [] ∧
    (update_vector_store env st).2.1.chunks = st.chunks ∧
    (update_vector_store env st).2.1.metadata = some nw := by
  simp [update_vector_store, h1, h2, h3, h4, h5, h6, h7,
        save_store_metadata, h8]

theorem upd_empty_diff_witness :
    (update_vector_store envEmptyDiff stBase).1 = updOk "a" "b" 0 0 0 0 [] ∧
    (update_vector_store envEmptyDiff stBase).2.1.chunks = stBase.chunks ∧
    (update_vector_store envEmptyDiff stBase).2.1.metadata = some "b" :=
  upd_empty_diff envEmptyDiff stBase "a" "b" rfl rfl rfl rfl rfl
    (by decide) rfl rfl

/-- Claim C9: `save_store_metadata` swallows every failure into an ignored
boolean, so `update_vector_store` (and a full build) still reports success
carrying the new reference even when persisting the metadata file failed —
the persisted last-synchronized reference does not advance. -/
theorem save_failure_swallowed (env envB : Env) (st stB : StoreState)
    (old nw c0 : String) (crest : List String) (force : Bool)
    (h1 : env.repoExists = true) (h2 : env.repoIsDir = true)
    (h3 : env.dbExists = true) (h4 : st.metadata = some old)
    (h5 : env.newSha = some nw) (h6 : old ≠ nw)
    (h7 : env.changedFiles = Except.ok (c0 :: crest))
    (h8 : env.collectionOk = true) (h9 : env.apiKeyOk = true)
    (h10 : env.saveOk = false)
    (hb1 : envB.repoExists = true) (hb2 : envB.repoIsDir = true)
    (hb3 : envB.dbExists = false) (hb4 : envB.scanFiles = Except.ok [])
    (hb5 : envB.saveOk = false) :
    ((update_vector_store env st).1.success = true ∧
     (update_vector_store env st).1.new_sha = some nw ∧
     (update_vector_store env st).2.1.metadata = st.metadata) ∧
    ((initialize_vector_store envB force stB).1.success = true ∧
     (initialize_vector_store envB force stB).2.1.metadata = stB.metadata) := by
  constructor
  · rw [upd_main env st old nw c0 crest h1 h2 h3 h4 h5 h6 h7 h8 h9]
    simp [updOk, save_metadata_failed env _ nw h10, h4]
  · cases hns : envB.newSha with
    | none =>
      simp [initialize_vector_store, hb1, hb2, hb3, hb4, saveIfSha, hns, bOk]
    | some sha =>
      simp [initialize_vector_store, hb1, hb2, hb3, hb4, saveIfSha, hns, bOk,
            save_metadata_failed _ _ _ hb5]

theorem save_failure_swallowed_witness :
    ((update_vector_store envSaveFails stBase).1.success = true ∧
     (update_vector_store envSaveFails stBase).1.new_sha = some "b" ∧
     (update_vector_store envSaveFails stBase).2.1.metadata = stBase.metadata) ∧
    ((initialize_vector_store envBuildSaveFails false stBase).1.success = true ∧
     (initialize_vector_store envBuildSaveFails false stBase).2.1.metadata =
       stBase.metadata) :=
  save_failure_swallowed envSaveFails envBuildSaveFails stBase stBase
    "a" "b" "a.md" [] false rfl rfl rfl rfl rfl (by decide) rfl rfl rfl rfl
    rfl rfl rfl rfl rfl

/-- Claim C1: for a changed path with a classifiable extension that incurs
no processing error during the update, after `update_vector_store` the
collection holds exactly the chunks produced from the current on-disk
content of that path — the old chunks are deleted unconditionally, and the
reinserted ones (none when the file no longer exists, or chunks to nothing)
are exactly those of the per-file pipeline. -/
theorem upd_delete_then_reinsert (env : Env) (st : StoreState)
    (old nw p ftype : String) (changed : List String)
    (h1 : env.repoExists = true) (h2 : env.repoIsDir = true)
    (h3 : env.dbExists = true) (h4 : st.metadata = some old)
    (h5 : env.newSha = some nw) (h6 : old ≠ nw)
    (h7 : env.changedFiles = Except.ok changed)
    (h8 : changed.Nodup) (h9 : p ∈ changed)
    (h10 : env.collectionOk = true) (h11 : env.apiKeyOk = true)
    (h12 : lookupExt (lowerString (pathSuffix p)) = some ftype)
    (h13 : noPathError env p ftype) :
    chunksFor p ((update_vector_store env st).2.1.chunks) =
      expectedChunks env p := by
  obtain ⟨s, t, rfl⟩ := List.append_of_mem h9
  obtain ⟨c0, crest, hc⟩ := exists_cons_append p s t
  rw [hc] at h7
  rw [upd_main env st old nw c0 crest h1 h2 h3 h4 h5 h6 h7 h10 h11]
  have hpt : p ∉ t :=
    (List.nodup_cons.mp (List.nodup_append.mp h8).2.1).1
  simp only []
  rw [save_preserves_chunks]
  show chunksFor p
      (((c0 :: crest).foldl (stepFile env) (initAcc st.chunks)).chunks) = _
  rw [← hc, List.foldl_append, List.foldl_cons,
      foldl_chunksFor_not_mem env t _ hpt,
      stepFile_chunksFor_self env _ p ftype h12 h13.1]

theorem upd_delete_then_reinsert_witness :
    chunksFor "a.md" ((update_vector_store envBase stBase).2.1.chunks) =
      expectedChunks envBase "a.md" :=
  upd_delete_then_reinsert envBase stBase "a" "b" "a.md" "markdown" ["a.md"]
    rfl rfl rfl rfl rfl (by decide) rfl (by simp) (by simp) rfl rfl rfl
    ⟨rfl, by
      intro content hc
      refine ⟨[content], rfl, Or.inr ⟨[List.replicate 256 (0 : ℚ)], rfl, ?_⟩⟩
      show milvusInsertAccepts EMBEDDING_DIM 1 [List.replicate 256 (0 : ℚ)] = true
      unfold milvusInsertAccepts
      rw [Bool.and_eq_true]
      refine ⟨rfl, ?_⟩
      rw [List.all_cons, List.all_nil, Bool.and_true, List.length_replicate]
      rfl⟩

/-- Claim C4: when chunking or embedding fails for a changed path after its
old chunks were deleted, the deletion is not rolled back — the path ends the
update with zero stored chunks — the path is recorded as a per-path
processing error (the chunking error message, or the embedding error
wrapped by the handler) and skipped for insertion, the update still reports
success, and Store Metadata is still advanced to the new reference. -/
theorem upd_no_rollback_on_path_error (env : Env) (st : StoreState)
    (old nw p ftype content msg : String) (changed : List String)
    (h1 : env.repoExists = true) (h2 : env.repoIsDir = true)
    (h3 : env.dbExists = true) (h4 : st.metadata = some old)
    (h5 : env.newSha = some nw) (h6 : old ≠ nw)
    (h7 : env.changedFiles = Except.ok changed)
    (h8 : changed.Nodup) (h9 : p ∈ changed)
    (h10 : env.collectionOk = true) (h11 : env.apiKeyOk = true)
    (h12 : lookupExt (lowerString (pathSuffix p)) = some ftype)
    (h13 : env.deleteFail p = none)
    (h14 : env.fs p = some content)
    (h15 : env.split content ftype = Except.error msg ∨
      ∃ t0 ts e, env.split content ftype = Except.ok (t0 :: ts) ∧
        env.embed (t0 :: ts) = Except.error e ∧
        msg = "Error generating embeddings: " ++ e)
    (h16 : env.saveOk = true) :
    (update_vector_store env st).1.success = true ∧
    chunksFor p ((update_vector_store env st).2.1.chunks) = [] ∧
    (p, msg) ∈ (update_vector_store env st).1.processing_errors ∧
    (update_vector_store env st).2.1.metadata = some nw := by
  obtain ⟨s, t, rfl⟩ := List.append_of_mem h9
  obtain ⟨c0, crest, hc⟩ := exists_cons_append p s t
  rw [hc] at h7
  rw [upd_main env st old nw c0 crest h1 h2 h3 h4 h5 h6 h7 h10 h11]
  have hpt : p ∉ t :=
    (List.nodup_cons.mp (List.nodup_append.mp h8).2.1).1
  have hstep :
      (stepFile env (s.foldl (stepFile env) (initAcc st.chunks)) p).chunks =
        deletePath p ((s.foldl (stepFile env) (initAcc st.chunks)).chunks) ∧
      (stepFile env (s.foldl (stepFile env) (initAcc st.chunks)) p).errors =
        (s.foldl (stepFile env) (initAcc st.chunks)).errors ++ [(p, msg)] := by
    rcases h15 with hsp | ⟨t0, ts, e, hsp, hem, rfl⟩
    · exact stepFile_split_error env _ p ftype content msg h12 h13 h14 hsp
    · exact stepFile_embed_error env _ p ftype content t0 ts e
        h12 h13 h14 hsp hem
  simp only []
  refine ⟨rfl, ?_, ?_, ?_⟩
  · rw [save_preserves_chunks]
    show chunksFor p
        (((c0 :: crest).foldl (stepFile env) (initAcc st.chunks)).chunks) = _
    rw [← hc, List.foldl_append, List.foldl_cons,
        foldl_chunksFor_not_mem env t _ hpt, hstep.1,
        chunksFor_deletePath_self]
  · show (p, msg) ∈
        ((c0 :: crest).foldl (stepFile env) (initAcc st.chunks)).errors
    rw [← hc, List.foldl_append, List.foldl_cons]
    apply foldl_errors_mono env t
    rw [hstep.2]
    exact List.mem_append_right _ (List.mem_singleton.mpr rfl)
  · exact save_metadata_success env _ nw h16

theorem upd_no_rollback_on_path_error_witness :
    ((update_vector_store envSplitFails stBase).1.success = true ∧
     chunksFor "a.md"
       ((update_vector_store envSplitFails stBase).2.1.chunks) = [] ∧
     ("a.md", "boom") ∈
       (update_vector_store envSplitFails stBase).1.processing_errors ∧
     (update_vector_store envSplitFails stBase).2.1.metadata = some "b") ∧
    ((update_vector_store envEmbedErr stBase).1.success = true ∧
     chunksFor "a.md"
       ((update_vector_store envEmbedErr stBase).2.1.chunks) = [] ∧
     ("a.md", "Error generating embeddings: embedding down") ∈
       (update_vector_store envEmbedErr stBase).1.processing_errors ∧
     (update_vector_store envEmbedErr stBase).2.1.metadata = some "b") :=
  ⟨upd_no_rollback_on_path_error envSplitFails stBase "a" "b" "a.md"
     "markdown" "hello" "boom" ["a.md"] rfl rfl rfl rfl rfl (by decide) rfl
     (by simp) (by simp) rfl rfl rfl rfl rfl (Or.inl rfl) rfl,
   upd_no_rollback_on_path_error envEmbedErr stBase "a" "b" "a.md"
     "markdown" "hello" "Error generating embeddings: embedding down"
     ["a.md"] rfl rfl rfl rfl rfl (by decide) rfl (by simp) (by simp) rfl
     rfl rfl rfl rfl
     (Or.inr ⟨"hello", [], "embedding down", rfl, rfl, rfl⟩) rfl⟩

theorem stepFile_chunksFor_unsupported (env : Env) (acc : LoopAcc)
    (f : String) {p : String}
    (h : lookupExt (lowerString (pathSuffix p)) = none) :
    chunksFor p (stepFile env acc f).chunks = chunksFor p acc.chunks := by
  by_cases hpf : p = f
  · rw [← hpf, stepFile_unsupported env acc p h]
  · exact stepFile_chunksFor_ne env acc hpf

/-- Claim C6: a changed path whose extension is not in the supported table
(matched case-insensitively) is skipped whole by the update loop — no
deletion, no insertion, nothing recorded — every previously indexed chunk
for it survives the update untouched, and such paths never appear in the
full-build repository scan either. -/
theorem unsupported_ext_invisible (env : Env) (acc : LoopAcc)
    (st : StoreState) (allFiles : List String) (p t : String)
    (h : lookupExt (lowerString (pathSuffix p)) = none) :
    stepFile env acc p = acc ∧
    chunksFor p ((update_vector_store env st).2.1.chunks) =
      chunksFor p st.chunks ∧
    (p, t) ∉ scan_repository_files allFiles := by
  refine ⟨stepFile_unsupported env acc p h, ?_, ?_⟩
  · unfold update_vector_store
    repeat' split
    all_goals simp [save_preserves_chunks, initAcc,
      foldl_chunksFor_unsupported env h,
      stepFile_chunksFor_unsupported env _ _ h]
  · intro hmem
    simp only [scan_repository_files, List.mem_filterMap] at hmem
    obtain ⟨f, _, hf⟩ := hmem
    cases hfp : lookupExt (lowerString (pathSuffix f)) with
    | none => simp [hfp] at hf
    | some tf =>
      simp only [hfp, Option.some.injEq, Prod.mk.injEq] at hf
      obtain ⟨rfl, rfl⟩ := hf
      rw [h] at hfp
      exact Option.noConfusion hfp

theorem unsupported_ext_invisible_witness :
    stepFile envBase (initAcc []) "a.bin" = initAcc [] ∧
    chunksFor "a.bin" ((update_vector_store envBase stBase).2.1.chunks) =
      chunksFor "a.bin" stBase.chunks ∧
    ("a.bin", "binary") ∉ scan_repository_files ["a.bin", "b.md"] :=
  unsupported_ext_invisible envBase (initAcc []) stBase ["a.bin", "b.md"]
    "a.bin" "binary" rfl

/-- Claim C8: the relevance score attached to each search result,
1 / (1 + distance), is strictly decreasing in the vector distance: of any
two returned hits, the one with the strictly smaller (nonnegative) distance
gets the strictly greater relevance. -/
theorem search_relevance_antitone (hits : List SearchHit)
    (g1 g2 : SearchHit) (_hm1 : g1 ∈ hits) (_hm2 : g2 ∈ hits)
    (hd : 0 ≤ g1.distance) (hlt : g1.distance < g2.distance) :
    (formatHit g2).relevance < (formatHit g1).relevance := by
  simp only [formatHit, relevanceScore]
  have hp1 : (0 : ℚ) < 1 + g1.distance := by linarith
  have hp2 : 1 + g1.distance < 1 + g2.distance := by linarith
  exact one_div_lt_one_div_of_lt hp1 hp2

theorem search_relevance_antitone_witness :
    0 ≤ hitNear.distance ∧ hitNear.distance < hitFar.distance ∧
    (formatHit hitFar).relevance < (formatHit hitNear).relevance :=
  ⟨by norm_num [hitNear], by norm_num [hitNear, hitFar],
   search_relevance_antitone [hitNear, hitFar] hitNear hitFar
     (by simp) (by simp) (by norm_num [hitNear])
     (by norm_num [hitNear, hitFar])⟩

/-- Claim C3: a full build whose embedding batch contains any vector of
length different from the configured dimension (256) fails with a
processing error and ends with no chunk inserted (a first-vector mismatch
is caught by the explicit check, any other is rejected whole by the
backend insert); in an update, a per-file batch containing a mismatched
vector is rejected whole — nothing is inserted for the path and a per-path
error is recorded — never padded or truncated. -/
theorem dimension_mismatch_fails (envB : Env) (force : Bool)
    (stB : StoreState) (f0 : String × String) (frest : List (String × String))
    (embs : List Vec) (v : Vec)
    (envU : Env) (accU : LoopAcc) (pU ftypeU contentU u0 : String)
    (us : List String) (vecsU : List Vec) (w : Vec)
    (hb1 : envB.repoExists = true) (hb2 : envB.repoIsDir = true)
    (hb3 : ¬(envB.dbExists = true ∧ force = false))
    (hb4 : envB.scanFiles = Except.ok (f0 :: frest))
    (hb5 : envB.apiKeyOk = true)
    (hb6 : ((f0 :: frest).foldl (buildStep envB) buildAccInit).totalChunks ≠ 0)
    (hb7 : envB.embed ((f0 :: frest).foldl (buildStep envB) buildAccInit).texts =
      Except.ok embs)
    (hb8 : v ∈ embs) (hb9 : v.length ≠ EMBEDDING_DIM)
    (hu1 : lookupExt (lowerString (pathSuffix pU)) = some ftypeU)
    (hu2 : envU.deleteFail pU = none)
    (hu3 : envU.fs pU = some contentU)
    (hu4 : envU.split contentU ftypeU = Except.ok (u0 :: us))
    (hu5 : envU.embed (u0 :: us) = Except.ok vecsU)
    (hu6 : w ∈ vecsU) (hu7 : w.length ≠ EMBEDDING_DIM) :
    ((initialize_vector_store envB force stB).1.success = false ∧
     (initialize_vector_store envB force stB).1.error_type =
       some "processing_error" ∧
     (initialize_vector_store envB force stB).2.1.chunks = []) ∧
    (chunksFor pU (stepFile envU accU pU).chunks = [] ∧
     (pU, "Error generating embeddings: backend rejected batch") ∈
       (stepFile envU accU pU).errors) := by
  constructor
  · have hie : embs.isEmpty = false := by
      cases embs with
      | nil => simp at hb8
      | cons e es => rfl
    by_cases hh : (embs.headD []).length = EMBEDDING_DIM
    · have hacc : milvusInsertAccepts EMBEDDING_DIM
          ((f0 :: frest).foldl (buildStep envB) buildAccInit).texts.length
          embs = false := by
        cases hacc2 : milvusInsertAccepts EMBEDDING_DIM
            ((f0 :: frest).foldl (buildStep envB) buildAccInit).texts.length
            embs with
        | false => rfl
        | true =>
          unfold milvusInsertAccepts at hacc2
          rw [Bool.and_eq_true] at hacc2
          have hall := List.all_eq_true.mp hacc2.2 v hb8
          rw [beq_iff_eq] at hall
          exact absurd hall hb9
      simp_all [initialize_vector_store, bFail]
      cases hd : envB.dbExists with
      | false => simp [hd]
      | true => simp [hd, hb3 hd]
    · simp_all [initialize_vector_store, bFail]
      cases hd : envB.dbExists with
      | false => simp [hd]
      | true => simp [hd, hb3 hd]
  · have haccU : milvusInsertAccepts EMBEDDING_DIM (u0 :: us).length
        vecsU = false := by
      cases hacc2 : milvusInsertAccepts EMBEDDING_DIM (u0 :: us).length
          vecsU with
      | false => rfl
      | true =>
        unfold milvusInsertAccepts at hacc2
        rw [Bool.and_eq_true] at hacc2
        have hall := List.all_eq_true.mp hacc2.2 w hu6
        rw [beq_iff_eq] at hall
        exact absurd hall hu7
    simp only [List.length_cons] at haccU
    constructor
    · simp [stepFile, hu1, hu2, hu3, hu4, hu5, haccU,
            chunksFor_deletePath_self]
    · simp [stepFile, hu1, hu2, hu3, hu4, hu5, haccU]

theorem dimension_mismatch_fails_witness :
    ((initialize_vector_store envBuildBadDim false stBase).1.success = false ∧
     (initialize_vector_store envBuildBadDim false stBase).1.error_type =
       some "processing_error" ∧
     (initialize_vector_store envBuildBadDim false stBase).2.1.chunks = []) ∧
    (chunksFor "a.md" (stepFile envUpdBadDim (initAcc []) "a.md").chunks = [] ∧
     ("a.md", "Error generating embeddings: backend rejected batch") ∈
       (stepFile envUpdBadDim (initAcc []) "a.md").errors) :=
  dimension_mismatch_fails envBuildBadDim false stBase ("a.md", "markdown")
    [] [[(0 : ℚ)]] [(0 : ℚ)] envUpdBadDim (initAcc []) "a.md" "markdown"
    "hello" "hello" [] [[(0 : ℚ)]] [(0 : ℚ)]
    rfl rfl (by decide) rfl rfl (by decide) rfl (by simp) (by decide)
    rfl rfl rfl rfl rfl (by simp) (by decide)

set_option maxRecDepth 8192 in
/-- Claim C5 counterexample: concrete runs in which an exception raised
after the connect reaches the operation-boundary handler and the connection
is never released — an update whose collection lookup raises, a build whose
insert batch the backend rejects (its first vector passes the explicit
check), a search whose backend call raises after the connect, and a
store-info read that raises after its second connect. -/
theorem conn_leak_counterexample :
    ((update_vector_store envNoCollection stBase).2.2.connects = 1 ∧
     (update_vector_store envNoCollection stBase).2.2.disconnects = 0 ∧
     (update_vector_store envNoCollection stBase).1.error_type =
       some "processing_error") ∧
    ((initialize_vector_store envBuildLeak false stBase).2.2.connects = 1 ∧
     (initialize_vector_store envBuildLeak false stBase).2.2.disconnects = 0 ∧
     (initialize_vector_store envBuildLeak false stBase).1.error_type =
       some "processing_error") ∧
    ((searchConnTrace true true true false).connects = 1 ∧
     (searchConnTrace true true true false).disconnects = 0) ∧
    ((get_store_info_run true false true true 0).2.connects = 2 ∧
     (get_store_info_run true false true true 0).2.disconnects = 1) := by
  refine ⟨⟨rfl, rfl, rfl⟩, ⟨rfl, rfl, rfl⟩, ⟨rfl, rfl⟩, ⟨rfl, rfl⟩⟩

/-- Claim C5 (amended): every operation that acquires a connection to the
storage backend — update, build, search and store-info — releases it on
each structured exit path, success or structured error, provided no
exception is raised after the connect (the collection lookup succeeds, the
embedding batches are well-formed, the backend calls return); an exception
that reaches the operation-boundary handler after the connect is swallowed
into the structured failure result without a disconnect, leaking that
connection (see the counterexample runs). -/
theorem conn_released_amended (env : Env) (st st2 : StoreState) (force : Bool)
    (dbE apiE embE hasColl : Bool) (numEntities : Nat)
    (hdim : ∀ ts vs, env.embed ts = Except.ok vs →
      vs.length = ts.length ∧ ∀ v ∈ vs, v.length = EMBEDDING_DIM)
    (hcol : env.collectionOk = true) :
    ((update_vector_store env st).2.2.disconnects =
      (update_vector_store env st).2.2.connects) ∧
    ((initialize_vector_store env force st2).2.2.disconnects =
      (initialize_vector_store env force st2).2.2.connects) ∧
    ((searchConnTrace dbE apiE embE true).disconnects =
      (searchConnTrace dbE apiE embE true).connects) ∧
    ((get_store_info_run dbE false hasColl false numEntities).2.disconnects =
      (get_store_info_run dbE false hasColl false numEntities).2.connects) := by
  refine ⟨?_, ?_, ?_, ?_⟩
  · unfold update_vector_store
    repeat' split
    all_goals simp_all [Trace.empty]
  · have haccAll : ∀ ts vs, env.embed ts = Except.ok vs →
        milvusInsertAccepts EMBEDDING_DIM ts.length vs = true := by
      intro ts vs hok
      obtain ⟨hlen, hall⟩ := hdim ts vs hok
      unfold milvusInsertAccepts
      rw [Bool.and_eq_true]
      refine ⟨by simp [hlen], List.all_eq_true.mpr ?_⟩
      intro v hv
      simp [hall v hv]
    unfold initialize_vector_store
    repeat' split
    all_goals try simp_all [Trace.empty]
    rename_i x files f0 frest h3 h2 h1 heq hapi
    by_cases h0 :
      (List.foldl (buildStep env) (buildStep env buildAccInit f0)
        frest).totalChunks = 0
    · simp [h0]
    · rw [if_neg h0]
      cases hembs : env.embed
          (List.foldl (buildStep env) (buildStep env buildAccInit f0)
            frest).texts with
      | error e => rfl
      | ok embs =>
        simp only [hembs]
        by_cases hh :
          (¬embs = [] ∧ ¬List.length (embs.head?.getD []) = EMBEDDING_DIM)
        · simp [hh]
        · simp [hh, haccAll _ _ hembs]
  · unfold searchConnTrace
    cases dbE <;> cases apiE <;> cases embE <;> rfl
  · unfold get_store_info_run check_vector_store_run
    cases dbE <;> cases hasColl <;> rfl

theorem conn_released_amended_witness :
    ((update_vector_store envEmbedErr stBase).2.2.disconnects =
      (update_vector_store envEmbedErr stBase).2.2.connects) ∧
    ((initialize_vector_store envEmbedErr true stBase).2.2.disconnects =
      (initialize_vector_store envEmbedErr true stBase).2.2.connects) ∧
    ((searchConnTrace true true true true).disconnects =
      (searchConnTrace true true true true).connects) ∧
    ((get_store_info_run true false true false 0).2.disconnects =
      (get_store_info_run true false true false 0).2.connects) :=
  conn_released_amended envEmbedErr stBase stBase true true true true true 0
    (by
      intro ts vs h
      exact Except.noConfusion h)
    rfl

/-- Claim C10: when the query embedding length differs from the configured
dimension (256), `query_vector_store` silently pads the vector with zeros
(too short) or truncates it (too long) to exactly 256 entries and proceeds
with the nearest-neighbor search on the adjusted vector — the mismatch is
never reported as an error. -/
theorem query_dim_adjusted_silently (env : QueryEnv) (k : Nat)
    (h1 : env.dbExists = true) (h2 : env.apiKeyOk = true)
    (h3 : env.queryEmbedding.length ≠ EMBEDDING_DIM) :
    (adjustQueryEmbedding env.queryEmbedding).length = EMBEDDING_DIM ∧
    (env.queryEmbedding.length < EMBEDDING_DIM →
      adjustQueryEmbedding env.queryEmbedding =
        env.queryEmbedding ++
          List.replicate (EMBEDDING_DIM - env.queryEmbedding.length) 0) ∧
    (EMBEDDING_DIM < env.queryEmbedding.length →
      adjustQueryEmbedding env.queryEmbedding =
        env.queryEmbedding.take EMBEDDING_DIM) ∧
    query_vector_store env k =
      Except.ok
        ((env.search (adjustQueryEmbedding env.queryEmbedding) k).map
          formatHit) := by
  refine ⟨?_, ?_, ?_, ?_⟩
  · unfold adjustQueryEmbedding
    rw [if_pos h3]
    by_cases hlt : env.queryEmbedding.length < EMBEDDING_DIM
    · rw [if_pos hlt]
      rw [List.length_append, List.length_replicate]
      exact Nat.add_sub_cancel' (Nat.le_of_lt hlt)
    · rw [if_neg hlt]
      rw [List.length_take]
      exact Nat.min_eq_left (Nat.le_of_not_lt hlt)
  · intro hlt
    unfold adjustQueryEmbedding
    rw [if_pos h3, if_pos hlt]
  · intro hgt
    unfold adjustQueryEmbedding
    rw [if_pos h3, if_neg (Nat.not_lt_of_gt hgt)]
  · simp [query_vector_store, h1, h2]

theorem query_dim_adjusted_silently_witness :
    (adjustQueryEmbedding qEnvShort.queryEmbedding).length = EMBEDDING_DIM ∧
    (qEnvShort.queryEmbedding.length < EMBEDDING_DIM →
      adjustQueryEmbedding qEnvShort.queryEmbedding =
        qEnvShort.queryEmbedding ++
          List.replicate (EMBEDDING_DIM - qEnvShort.queryEmbedding.length) 0) ∧
    (EMBEDDING_DIM < qEnvShort.queryEmbedding.length →
      adjustQueryEmbedding qEnvShort.queryEmbedding =
        qEnvShort.queryEmbedding.take EMBEDDING_DIM) ∧
    query_vector_store qEnvShort 10 =
      Except.ok
        ((qEnvShort.search (adjustQueryEmbedding qEnvShort.queryEmbedding)
            10).map formatHit) :=
  query_dim_adjusted_silently qEnvShort 10 rfl rfl (by decide)
